import Mathlib

/-!
Verification of the schema-driven validation/transformation engine described by
the repository's specification, together with the concrete form schema and the
`formatName` helper written in `src/src/App.tsx`.

The engine itself (schema construction and the `validate` operation) arrives in
the repository as an imported dependency and is not present under `src/`, so it
is modelled from the specification (§3–§4): schemas are an immutable tree of
primitive nodes carrying ordered checks, transform/refine wrappers, object
nodes, and array nodes; evaluation is a pure recursive function producing a
`ValidationResult`.  The caller-supplied pieces — the field chains of
`createUserFormSchema`, the two avatar lambdas, and `formatName` — are
translated directly from `src/src/App.tsx`.

Caller-supplied transforms and refinement predicates are partial JavaScript
functions (they can dereference `null` or index an empty string), so they are
embedded as `Option`-valued functions; `none` means the JavaScript code would
throw, and the evaluator propagates it as the `Outcome.crash` branch.
-/

/-- A platform file handle; the engine only ever reads its byte length
(spec §4: "Size checks on file-like values use byte length already known as
part of the platform file handle"). -/
structure FileHandle where
  size : Nat
  deriving DecidableEq, Repr

/-- Modelled from the spec (§9): the tagged "raw value" union consumed by the
evaluation operation: string, number, boolean, sequence, mapping, file-list,
file handle, JavaScript `null` (produced by `FileList.item` on an empty list),
and absent field. Numbers are integers; no fractional literal is exercised by
this form. -/
inductive RawValue where
  | str : String → RawValue
  | num : Int → RawValue
  | boolVal : Bool → RawValue
  | list : List RawValue → RawValue
  | obj : List (String × RawValue) → RawValue
  | fileList : List FileHandle → RawValue
  | file : FileHandle → RawValue
  | nullVal : RawValue
  | absent : RawValue
  deriving Repr

/-- One segment of an error path: an object field name or an array index. -/
inductive PathSeg where
  | field : String → PathSeg
  | index : Nat → PathSeg
  deriving DecidableEq, Repr

/-- `FieldError` from the spec (§3): a (path, message) pair identifying one
validation failure. -/
structure FieldError where
  path : List PathSeg
  message : String
  deriving DecidableEq, Repr

/-- `ValidationResult` from the spec (§3): `Success` with the transformed value
or `Failure` with an ordered list of field errors. -/
inductive ValidationResult where
  | success : RawValue → ValidationResult
  | failure : List FieldError → ValidationResult
  deriving Repr

/-- Total embedding of one evaluation: either a `ValidationResult` value, or
`crash`, the branch reached when a caller-supplied transform or refinement
predicate performs an undefined JavaScript operation (e.g. reading `.size` of
`null`). -/
inductive Outcome where
  | crash : Outcome
  | ok : ValidationResult → Outcome
  deriving Repr

/-! ## Character-level string operations

JavaScript's `trim`, `split(" ")`, `join(" ")`, case conversion and `Number`
coercion, defined over the character list of a string so that every concrete
evaluation reduces in the kernel.  Case conversion is modelled ASCII-wise
(`toLocaleUpperCase` / `toLowerCase` agree with it on every string this form
manipulates). -/

/-- The whitespace characters relevant to `String.prototype.trim`. -/
def isJsSpace (c : Char) : Bool :=
  c = ' ' || c = '\t' || c = '\n' || c = '\r'

/-- JavaScript `trim`: strip leading and trailing whitespace. -/
def jsTrim (s : String) : String :=
  String.mk (((s.data.dropWhile isJsSpace).reverse.dropWhile isJsSpace).reverse)

/-- JavaScript `split` with a single-character separator; keeps empty pieces,
and splitting the empty string yields one empty piece. -/
def splitSep (sep : Char) : List Char → List (List Char)
  | [] => [[]]
  | c :: rest =>
    let r := splitSep sep rest
    if c = sep then [] :: r
    else
      match r with
      | w :: ws => (c :: w) :: ws
      | [] => [[c]]

/-- JavaScript `Array.prototype.join(" ")` on a list of words. -/
def joinSpace : List (List Char) → List Char
  | [] => []
  | [w] => w
  | w :: ws => w ++ ' ' :: joinSpace ws

/-- JavaScript `toLowerCase`, ASCII-wise. -/
def jsToLower (s : String) : String :=
  String.mk (s.data.map Char.toLower)

/-- One step of `formatName`'s `map`: `word[0].toLocaleUpperCase().concat(word.substring(1))`.
On an empty word, `word[0]` is `undefined` and calling `toLocaleUpperCase` on
it throws, modelled as `none`. -/
def formatWord : List Char → Option (List Char)
  | [] => none
  | c :: rest => some (c.toUpper :: rest)

/-- `formatWord` mapped over all words, failing if any word fails. -/
def formatWords : List (List Char) → Option (List (List Char))
  | [] => some []
  | w :: ws =>
    match formatWord w, formatWords ws with
    | some w2, some ws2 => some (w2 :: ws2)
    | _, _ => none

/-- `formatName` from `src/src/App.tsx` (lines 17–27): trim, split on single
spaces, uppercase the first character of each word keeping the rest, and join
with single spaces.  `none` marks the input strings on which the JavaScript
function throws (some split piece is empty, so `word[0]` is `undefined`). -/
def formatName (name : String) : Option String :=
  (formatWords (splitSep ' ' (jsTrim name).data)).map (fun ws => String.mk (joinSpace ws))

/-! ## Numeric coercion -/

/-- Decimal digit-list value. -/
def digitsToNat (cs : List Char) : Nat :=
  cs.foldl (fun a c => a * 10 + (c.toNat - 48)) 0

/-- Modelled from the spec (§4): syntax accepted by numeric coercion — an
optional sign followed by at least one decimal digit.  The empty string
(after trimming) is a failure, never zero; fractional syntax is not exercised
by this form and is omitted. -/
def parseIntString (s : String) : Option Int :=
  match s.data with
  | [] => none
  | '-' :: rest =>
      if !rest.isEmpty && rest.all Char.isDigit then some (-(digitsToNat rest : Int)) else none
  | '+' :: rest =>
      if !rest.isEmpty && rest.all Char.isDigit then some ((digitsToNat rest : Int)) else none
  | cs =>
      if cs.all Char.isDigit then some ((digitsToNat cs : Int)) else none

/-- Modelled from the spec (§4, §8): `coerceNumber` — "coercion treats
empty/whitespace-only strings and non-numeric strings as failures, not as
zero".  Numbers pass through, strings are trimmed and parsed, booleans map to
0/1, and every other shape fails. -/
def jsParseNumber : RawValue → Option Int
  | .num n => some n
  | .boolVal b => some (if b then 1 else 0)
  | .str s => parseIntString (jsTrim s)
  | _ => none

/-! ## Checks -/

/-- Checks attachable to a string node, in declared order: minimum length
(`nonempty` is `minLen 1`), email-shape match, and the lower-casing transform
that `toLowerCase` threads through the check sequence. -/
inductive StrCheck where
  | minLen : Nat → String → StrCheck
  | emailFmt : String → StrCheck
  | toLower : StrCheck
  deriving Repr

/-- Checks attachable to a coerced-number node: inclusive lower and upper
bounds (spec §4: "bound checks (`min`, `max`) are inclusive"). -/
inductive NumCheck where
  | minVal : Int → String → NumCheck
  | maxVal : Int → String → NumCheck
  deriving Repr

/-- Modelled from the spec: the email-shape format check — exactly one
at-sign, a nonempty local part, and a domain of at least two nonempty
dot-separated labels. -/
def isEmailShape (s : String) : Bool :=
  match splitSep '@' s.data with
  | [loc, dom] =>
    let parts := splitSep '.' dom
    !loc.isEmpty && !dom.isEmpty && decide (2 ≤ parts.length) && parts.all (fun p => !p.isEmpty)
  | _ => false

/-- Run one string check: returns the (possibly rewritten) running value and
the failure message, if the check fails. -/
def runStrCheck : StrCheck → String → String × Option String
  | .minLen n msg, s => (s, if s.length < n then some msg else none)
  | .emailFmt msg, s => (s, if isEmailShape s then none else some msg)
  | .toLower, s => (jsToLower s, none)

/-- Run a string node's checks in declared order, threading the running value
and collecting every failing check's message (spec §4: one node can contribute
multiple errors). -/
def runStrChecks : List StrCheck → String → String × List String
  | [], s => (s, [])
  | c :: cs, s =>
    let step := runStrCheck c s
    let rest := runStrChecks cs step.1
    (rest.1, match step.2 with
             | some m => m :: rest.2
             | none => rest.2)

/-- Failure message of one numeric bound check, if it fails (inclusive bounds). -/
def numCheckError : NumCheck → Int → Option String
  | .minVal n msg, x => if x < n then some msg else none
  | .maxVal n msg, x => if n < x then some msg else none

/-- All failing bound-check messages of a coerced-number node, in declared order. -/
def numCheckErrors (cs : List NumCheck) (x : Int) : List String :=
  cs.filterMap (fun c => numCheckError c x)

/-! ## Schemas -/

/-- Modelled from the spec (§3–§4): the immutable schema tree.  Primitive
nodes carry their ordered checks; `transform` and `refine` wrap an inner
schema exactly as the chained builder calls wrap the schema they are called
on; object schemas are an ordered field list encoded as cons cells
(`objCons name fieldSchema restOfObject`); array schemas carry the element
schema and the optional minimum-items check. -/
inductive Schema where
  | str : List StrCheck → Schema
  | coerceNum : List NumCheck → Schema
  | fileListInst : Schema
  | transform : Schema → (RawValue → Option RawValue) → Schema
  | refine : Schema → (RawValue → Option Bool) → String → Schema
  | objNil : Schema
  | objCons : String → Schema → Schema → Schema
  | array : Schema → Option (Nat × String) → Schema

/-- Build an object schema from an ordered field list, as `z.object({...})`
presents it. -/
def objectOf (fields : List (String × Schema)) : Schema :=
  fields.foldr (fun f acc => Schema.objCons f.1 f.2 acc) Schema.objNil

/-- First entry of an object value under a field name. -/
def lookupEntry : List (String × RawValue) → String → Option RawValue
  | [], _ => none
  | e :: rest, name => if e.1 = name then some e.2 else lookupEntry rest name

/-- The errors of a validation result (`[]` for success). -/
def errsOf : ValidationResult → List FieldError
  | .success _ => []
  | .failure es => es

/-- The entries of an object value (`[]` on any other shape; only applied to
values that object evaluation itself produced, which are always objects). -/
def objEntriesOf : RawValue → List (String × RawValue)
  | .obj es => es
  | _ => []

/-- Combine the outcomes of an array's elements: a crash anywhere crashes the
whole evaluation; otherwise aggregate every element's errors in order and
collect the transformed element values. -/
def combineElems : List Outcome → Option (List FieldError × List RawValue)
  | [] => some ([], [])
  | .crash :: _ => none
  | .ok r :: rs =>
    match combineElems rs with
    | none => none
    | some (errs, vs) =>
      match r with
      | .success v => some (errs, v :: vs)
      | .failure es => some (es ++ errs, vs)

/-- Modelled from the spec (§4.1): `validate(schema, input)` at a path.
A primitive node first runs its shape check (with coercion, when configured);
a shape or coercion failure contributes one error and suppresses the node's
remaining checks.  Otherwise the remaining checks run in declared order,
every failure is collected, and on a check-free pass the node's value is
produced.  `transform` applies its function only to a successful inner value
and returns its output without re-validation; `refine` tests its predicate
only on a successful inner value.  Objects evaluate every declared field
(absent fields validate the `absent` value and fail their shape check),
aggregating all child errors; arrays evaluate every element and then append
the array-level minimum-items error at the array's own path.  A `none` from a
caller-supplied transform or predicate is the JavaScript throw, propagated as
`crash`. -/
def validateAt : Schema → List PathSeg → RawValue → Outcome
  | .str checks, path, v =>
    match v with
    | .str s =>
      let r := runStrChecks checks s
      if r.2.isEmpty then .ok (.success (.str r.1))
      else .ok (.failure (r.2.map (fun m => FieldError.mk path m)))
    | _ => .ok (.failure [FieldError.mk path "Expected string"])
  | .coerceNum checks, path, v =>
    match jsParseNumber v with
    | none => .ok (.failure [FieldError.mk path "Expected number, received nan"])
    | some n =>
      let errs := numCheckErrors checks n
      if errs.isEmpty then .ok (.success (.num n))
      else .ok (.failure (errs.map (fun m => FieldError.mk path m)))
  | .fileListInst, path, v =>
    match v with
    | .fileList fs => .ok (.success (.fileList fs))
    | _ => .ok (.failure [FieldError.mk path "Input not instance of FileList"])
  | .transform inner f, path, v =>
    match validateAt inner path v with
    | .ok (.success u) =>
      match f u with
      | some w => .ok (.success w)
      | none => .crash
    | o => o
  | .refine inner p msg, path, v =>
    match validateAt inner path v with
    | .ok (.success u) =>
      match p u with
      | some true => .ok (.success u)
      | some false => .ok (.failure [FieldError.mk path msg])
      | none => .crash
    | o => o
  | .objNil, path, v =>
    match v with
    | .obj _ => .ok (.success (.obj []))
    | _ => .ok (.failure [FieldError.mk path "Expected object"])
  | .objCons name fieldSchema rest, path, v =>
    match v with
    | .obj entries =>
      let rField := validateAt fieldSchema (path ++ [.field name])
                      ((lookupEntry entries name).getD .absent)
      let rRest := validateAt rest path (.obj entries)
      match rField, rRest with
      | .crash, _ => .crash
      | _, .crash => .crash
      | .ok (.success w), .ok (.success u) =>
          .ok (.success (.obj ((name, w) :: objEntriesOf u)))
      | .ok a, .ok b => .ok (.failure (errsOf a ++ errsOf b))
    | _ => .ok (.failure [FieldError.mk path "Expected object"])
  | .array elem minCheck, path, v =>
    match v with
    | .list items =>
      let rs := items.enum.map (fun p => validateAt elem (path ++ [.index p.1]) p.2)
      match combineElems rs with
      | none => .crash
      | some (errs, vals) =>
        let minErrs : List FieldError :=
          match minCheck with
          | some (n, msg) => if items.length < n then [FieldError.mk path msg] else []
          | none => []
        let allErrs := errs ++ minErrs
        if allErrs.isEmpty then .ok (.success (.list vals))
        else .ok (.failure allErrs)
    | _ => .ok (.failure [FieldError.mk path "Expected array"])

/-! ## The source schema (`createUserFormSchema`, src/src/App.tsx lines 31–54) -/

/-- The avatar transform from the source: `(list) => list.item(0)!`.
`FileList.item(0)` returns the first file, or `null` on an empty list; the
TypeScript non-null assertion has no runtime effect.  The non-FileList branch
is unreachable (the transform only runs after the `instanceof` check). -/
def avatarTransform : RawValue → Option RawValue
  | .fileList files =>
    some (match files with
          | f :: _ => .file f
          | [] => .nullVal)
  | _ => none

/-- The avatar refinement predicate from the source:
`file => file.size <= 5 * 1024 * 1024`.  Reading `.size` of `null` (the
transform's output for an empty FileList) throws, modelled as `none`. -/
def avatarSizeCheck : RawValue → Option Bool
  | .file f => some (decide (f.size ≤ 5 * 1024 * 1024))
  | _ => none

/-- The name transform from the source: `formatName` lifted to raw values.
It only ever receives the string the inner node validated. -/
def nameTransform : RawValue → Option RawValue
  | .str s => (formatName s).map RawValue.str
  | _ => none

/-- `avatar: z.instanceof(FileList).transform(list => list.item(0)!).refine(file => file.size <= 5*1024*1024, ...)` -/
def avatarSchema : Schema :=
  .refine (.transform .fileListInst avatarTransform) avatarSizeCheck
    "O arquivo precisa ter no máximo 5Mb"

/-- `name: z.string().nonempty("O nome é obrigatório").transform(formatName)` -/
def nameSchema : Schema :=
  .transform (.str [.minLen 1 "O nome é obrigatório"]) nameTransform

/-- `email: z.string().nonempty(...).email(...).toLowerCase()` -/
def emailSchema : Schema :=
  .str [.minLen 1 "O email é obrigatório", .emailFmt "Formato de email inválido", .toLower]

/-- `password: z.string().min(6, "A senha precisa ter no mínimo 6 caracteres")` -/
def passwordSchema : Schema :=
  .str [.minLen 6 "A senha precisa ter no mínimo 6 caracteres"]

/-- `knowledge: z.coerce.number().min(1).max(100)` (default bound messages). -/
def knowledgeSchema : Schema :=
  .coerceNum [.minVal 1 "Number must be greater than or equal to 1",
              .maxVal 100 "Number must be less than or equal to 100"]

/-- The element schema of `techs`: `z.object({ title, knowledge })`. -/
def techItemSchema : Schema :=
  objectOf [("title", .str [.minLen 1 "O titulo é obrigatório"]),
            ("knowledge", knowledgeSchema)]

/-- `techs: z.array(techItemSchema).min(2, "Precisa ter no mínimo 2 tecnologias")` -/
def techsSchema : Schema :=
  .array techItemSchema (some (2, "Precisa ter no mínimo 2 tecnologias"))

/-- `createUserFormSchema` from the source, field for field. -/
def createUserFormSchema : Schema :=
  objectOf [("avatar", avatarSchema),
            ("name", nameSchema),
            ("email", emailSchema),
            ("password", passwordSchema),
            ("techs", techsSchema)]

/-- Validate a raw input against the whole form schema at the root path. -/
def parseForm (v : RawValue) : Outcome :=
  validateAt createUserFormSchema [] v

/-! ## Spec scenario schemas and inputs -/

/-- Modelled from the spec (§8, scenario A):
`object{ name: string().nonEmpty(), email: string().nonEmpty().email(), password: string().min(6) }`. -/
def scenarioASchema : Schema :=
  objectOf [("name", .str [.minLen 1 "Required"]),
            ("email", .str [.minLen 1 "Required", .emailFmt "Invalid email"]),
            ("password", .str [.minLen 6 "String must contain at least 6 characters"])]

/-- Scenario A input: `{ name: " ", email: "bad", password: "12345" }`. -/
def scenarioAInput : RawValue :=
  .obj [("name", .str " "), ("email", .str "bad"), ("password", .str "12345")]

/-- Modelled from the spec (§8, scenario B):
`object{ name: string().nonEmpty().transform(capitalizeWords) }`, whose name
field is exactly the source's `name` chain. -/
def scenarioBSchema : Schema :=
  objectOf [("name", nameSchema)]

/-- Scenario C input: `[{title: "Go", knowledge: "150"}]`. -/
def scenarioCInput : RawValue :=
  .list [.obj [("title", .str "Go"), ("knowledge", .str "150")]]

/-- Modelled from claim C1's words, for comparison with `avatarSchema`: the
avatar node with the file-size check placed before the transform, so that the
size check would be evaluated after the `FileList` shape check but before any
transform output is produced. -/
def avatarSchemaCheckFirst : Schema :=
  .transform (.refine .fileListInst avatarSizeCheck "O arquivo precisa ter no máximo 5Mb")
    avatarTransform

/-- An input for the whole form that is valid in every field except that the
avatar `FileList` is empty (no file selected). -/
def inputEmptyAvatar : RawValue :=
  .obj [("avatar", .fileList []),
        ("name", .str "john doe"),
        ("email", .str "a@b.com"),
        ("password", .str "secret1"),
        ("techs", .list [.obj [("title", .str "Go"), ("knowledge", .str "80")],
                         .obj [("title", .str "JS"), ("knowledge", .num 50)]])]

/-! ## Auxiliary predicates for the general claims -/

/-- The object field names a schema looks up in the value it is applied to
(transform/refine wrappers delegate to the node they wrap). -/
def schemaFieldNames : Schema → List String
  | .objCons name _ rest => name :: schemaFieldNames rest
  | .transform inner _ => schemaFieldNames inner
  | .refine inner _ _ => schemaFieldNames inner
  | _ => []

/-- The hypothesis of the idempotence property, structurally: the value `v`
satisfies every check of the schema and every transform's second application
leaves it unchanged ("the transform's output satisfies all checks and is
unchanged by a second application of the transform").  Object values must be
exactly the schema's fields in declared order — the shape a successful
first validation produces. -/
def SecondPassFixed : Schema → RawValue → Prop
  | .str checks, v => ∃ s, v = .str s ∧ runStrChecks checks s = (s, [])
  | .coerceNum checks, v => ∃ n, v = .num n ∧ numCheckErrors checks n = []
  | .fileListInst, v => ∃ fs, v = .fileList fs
  | .transform inner f, v => SecondPassFixed inner v ∧ f v = some v
  | .refine inner p _, v => SecondPassFixed inner v ∧ p v = some true
  | .objNil, v => v = .obj []
  | .objCons name s rest, v =>
    ∃ w ws, v = .obj ((name, w) :: ws) ∧ SecondPassFixed s w ∧
      SecondPassFixed rest (.obj ws) ∧ name ∉ schemaFieldNames rest
  | .array elem minCheck, v =>
    ∃ items, v = .list items ∧ (∀ x ∈ items, SecondPassFixed elem x) ∧
      (match minCheck with
       | some nm => nm.1 ≤ items.length
       | none => True)

/-- Schemas built from shape and check nodes alone, with no caller-supplied
transform or refinement: the email, password and techs subtrees are of this
form. -/
def checksOnly : Schema → Bool
  | .str _ => true
  | .coerceNum _ => true
  | .fileListInst => true
  | .transform _ _ => false
  | .refine _ _ _ => false
  | .objNil => true
  | .objCons _ s rest => checksOnly s && checksOnly rest
  | .array elem _ => checksOnly elem

/-- The input's avatar field, when it is a FileList, is nonempty. -/
def avatarInputSafe : RawValue → Bool
  | .obj entries =>
    match lookupEntry entries "avatar" with
    | some (.fileList fs) => !fs.isEmpty
    | _ => true
  | _ => true

/-- The input's name field, when it is a string, is one on which `formatName`
is defined. -/
def nameInputSafe : RawValue → Bool
  | .obj entries =>
    match lookupEntry entries "name" with
    | some (.str s) => (formatName s).isSome
    | _ => true
  | _ => true

/-- A fully valid input for the whole form. -/
def inputGood : RawValue :=
  .obj [("avatar", .fileList [FileHandle.mk 1024]),
        ("name", .str "john doe"),
        ("email", .str "a@b.com"),
        ("password", .str "secret1"),
        ("techs", .list [.obj [("title", .str "Go"), ("knowledge", .str "80")],
                         .obj [("title", .str "JS"), ("knowledge", .num 50)]])]

/-! ## Theorems for the concrete-scenario claims -/

/-- Claim C1, counterexample: on the singleton FileList holding a 6 MiB file,
the source's avatar node produces the size-bound failure, yet the size
predicate is undefined on the pre-transform value (a `FileList` has no `size`
attribute), and the node obtained by evaluating the size check before the
transform — the order the claim asserts — crashes instead of failing.  The
size check therefore consumes the transform's output, contradicting the
claim's "before any transform output is produced". -/
theorem avatar_size_check_not_before_transform :
    validateAt avatarSchema [] (.fileList [FileHandle.mk (6 * 1024 * 1024)]) =
      .ok (.failure [FieldError.mk [] "O arquivo precisa ter no máximo 5Mb"]) ∧
    avatarSizeCheck (.fileList [FileHandle.mk (6 * 1024 * 1024)]) = none ∧
    validateAt avatarSchemaCheckFirst [] (.fileList [FileHandle.mk (6 * 1024 * 1024)]) = .crash :=
  ⟨rfl, rfl, rfl⟩

/-- Claim C1 (amended): a node's transform is applied only after everything
below it (its shape check and checks) has succeeded, and the transform's
output is returned without being re-validated; for the avatar schema, however,
the file-size check is a refinement attached after the transform, so it is
evaluated only after the FileList shape check succeeds and it applies to the
transform's output, the extracted file. -/
theorem transform_runs_after_checks_one_pass :
    (∀ (inner : Schema) (f : RawValue → Option RawValue) (path : List PathSeg) (v : RawValue),
      validateAt (.transform inner f) path v =
        match validateAt inner path v with
        | .ok (.success u) =>
          (match f u with
           | some w => .ok (.success w)
           | none => .crash)
        | o => o) ∧
    (∀ (path : List PathSeg) (fh : FileHandle),
      validateAt avatarSchema path (.fileList [fh]) =
        .ok (if fh.size ≤ 5 * 1024 * 1024 then .success (.file fh)
             else .failure [FieldError.mk path "O arquivo precisa ter no máximo 5Mb"])) := by
  constructor
  · intro inner f path v
    rfl
  · intro path fh
    by_cases h : fh.size ≤ 5 * 1024 * 1024 <;>
      simp [validateAt, avatarSchema, avatarTransform, avatarSizeCheck, h]

/-- Claim C2, counterexample: on the input whose avatar field is an empty
FileList (every other field valid), evaluation of the form schema reaches the
partial operation in the size refinement (`null.size`) instead of returning a
`ValidationResult`. -/
theorem form_validation_crashes_on_empty_avatar_list :
    parseForm inputEmptyAvatar = .crash ∧ ¬ ∃ r, parseForm inputEmptyAvatar = .ok r := by
  refine ⟨rfl, ?_⟩
  rintro ⟨r, h⟩
  rw [show parseForm inputEmptyAvatar = Outcome.crash from rfl] at h
  exact Outcome.noConfusion h

/-- Claim C3: numeric coercion fails on the empty string and on
whitespace-only strings (it never yields zero for them), and fails on the
non-numeric string "abc"; on the knowledge node such a string produces exactly
the coercion failure. -/
theorem coercion_rejects_empty_and_whitespace (s : String) (path : List PathSeg)
    (h : jsTrim s = "") :
    jsParseNumber (.str s) = none ∧
    jsParseNumber (.str "abc") = none ∧
    validateAt knowledgeSchema path (.str s) =
      .ok (.failure [FieldError.mk path "Expected number, received nan"]) := by
  have h1 : jsParseNumber (.str s) = none := by
    show parseIntString (jsTrim s) = none
    rw [h]
    rfl
  refine ⟨h1, rfl, ?_⟩
  simp [knowledgeSchema, validateAt, h1]

/-- Witness for C3 at the whitespace-only string "   ". -/
theorem coercion_rejects_empty_and_whitespace_witness :
    jsTrim "   " = "" ∧
    jsParseNumber (.str "   ") = none ∧
    jsParseNumber (.str "abc") = none ∧
    validateAt knowledgeSchema [] (.str "   ") =
      .ok (.failure [FieldError.mk [] "Expected number, received nan"]) := by
  have h : jsTrim "   " = "" := by decide
  obtain ⟨a, b, c⟩ := coercion_rejects_empty_and_whitespace "   " [] h
  exact ⟨h, a, b, c⟩

/-- Claim C4, counterexample: scenario A's validation does not return three
errors — the name " " is a length-1 string, so it passes the non-empty check
and contributes no error. -/
theorem scenarioA_not_three_errors :
    ¬ ∃ errs, validateAt scenarioASchema [] scenarioAInput = .ok (.failure errs) ∧
      errs.length = 3 := by
  rintro ⟨errs, h, hlen⟩
  rw [show validateAt scenarioASchema [] scenarioAInput =
        .ok (.failure [FieldError.mk [.field "email"] "Invalid email",
                       FieldError.mk [.field "password"] "String must contain at least 6 characters"])
      from rfl] at h
  cases h
  exact absurd hlen (by decide)

/-- Claim C4 (amended): scenario A returns `Failure` with exactly two errors,
one for the email format and one for the password length; the name " "
passes the non-empty check. -/
theorem scenarioA_two_errors :
    validateAt scenarioASchema [] scenarioAInput =
      .ok (.failure [FieldError.mk [.field "email"] "Invalid email",
                     FieldError.mk [.field "password"] "String must contain at least 6 characters"]) :=
  rfl

/-- Claim C5: validating `[{title: "Go", knowledge: "150"}]` against the techs
schema aggregates the element-level out-of-bounds error at `[0].knowledge`
with the array-level minimum-items error at the array's own path. -/
theorem techs_aggregates_element_and_array_errors :
    ∃ errs, validateAt techsSchema [] scenarioCInput = .ok (.failure errs) ∧
      FieldError.mk [.index 0, .field "knowledge"] "Number must be less than or equal to 100" ∈ errs ∧
      FieldError.mk [] "Precisa ter no mínimo 2 tecnologias" ∈ errs := by
  refine ⟨_, rfl, ?_, ?_⟩ <;> decide

/-- Claim C6: the knowledge node coerces "42" to the number 42, and on "abc"
it fails with exactly the coercion error — the bound checks contribute no
error. -/
theorem knowledge_coercion_and_bound_suppression :
    validateAt knowledgeSchema [] (.str "42") = .ok (.success (.num 42)) ∧
    validateAt knowledgeSchema [] (.str "abc") =
      .ok (.failure [FieldError.mk [] "Expected number, received nan"]) :=
  ⟨rfl, rfl⟩

/-- Claim C7: `formatName` capitalizes each space-separated word, and scenario
B validates `{ name: "ada lovelace" }` to `Success { name: "Ada Lovelace" }`. -/
theorem capitalize_words_scenario :
    formatName "ada lovelace" = some "Ada Lovelace" ∧
    validateAt scenarioBSchema [] (.obj [("name", .str "ada lovelace")]) =
      .ok (.success (.obj [("name", .str "Ada Lovelace")])) :=
  ⟨rfl, rfl⟩

/-- Claim C8: the avatar size bound — a 6 MiB file fails with the size-bound
message, a 1 KiB file succeeds, and the bound is inclusive: a file of exactly
5 MiB succeeds. -/
theorem avatar_size_bound_inclusive :
    validateAt avatarSchema [] (.fileList [FileHandle.mk (6 * 1024 * 1024)]) =
      .ok (.failure [FieldError.mk [] "O arquivo precisa ter no máximo 5Mb"]) ∧
    validateAt avatarSchema [] (.fileList [FileHandle.mk 1024]) =
      .ok (.success (.file (FileHandle.mk 1024))) ∧
    validateAt avatarSchema [] (.fileList [FileHandle.mk (5 * 1024 * 1024)]) =
      .ok (.success (.file (FileHandle.mk (5 * 1024 * 1024)))) :=
  ⟨rfl, rfl, rfl⟩

/-- Claim C10: with an empty FileList, the avatar transform produces `null`
(`item(0)` of an empty list), the size predicate dereferences `null.size`,
and evaluation of the avatar node reaches the partial-operation branch
instead of returning a `Failure` value. -/
theorem avatar_empty_fileList_reaches_partial_op :
    avatarTransform (.fileList []) = some .nullVal ∧
    avatarSizeCheck .nullVal = none ∧
    validateAt avatarSchema [] (.fileList []) = .crash :=
  ⟨rfl, rfl, rfl⟩

/-! ## Idempotence (claim C9) -/

/-- A schema that never looks up `name` evaluates an object value the same
with or without an extra leading `(name, w)` entry. -/
theorem validate_ignores_foreign_entry (S : Schema) :
    ∀ (path : List PathSeg) (name : String) (w : RawValue) (ws : List (String × RawValue)),
      name ∉ schemaFieldNames S →
      validateAt S path (.obj ((name, w) :: ws)) = validateAt S path (.obj ws) := by
  induction S with
  | str checks => intro path name w ws _; rfl
  | coerceNum checks => intro path name w ws _; rfl
  | fileListInst => intro path name w ws _; rfl
  | transform inner f ih =>
    intro path name w ws h
    simp only [schemaFieldNames] at h
    simp only [validateAt]
    rw [ih path name w ws h]
  | refine inner p msg ih =>
    intro path name w ws h
    simp only [schemaFieldNames] at h
    simp only [validateAt]
    rw [ih path name w ws h]
  | objNil => intro path name w ws _; rfl
  | objCons n s rest ihs ihrest =>
    intro path name w ws h
    simp only [schemaFieldNames, List.mem_cons, not_or] at h
    obtain ⟨hne, hrest⟩ := h
    simp only [validateAt]
    rw [show lookupEntry ((name, w) :: ws) n = lookupEntry ws n from by simp [lookupEntry, hne]]
    rw [ihrest path name w ws hrest]
  | array elem minCheck ih => intro path name w ws _; rfl

/-- Combining all-successful element outcomes yields no errors and the
element values in order. -/
theorem combineElems_all_success (vs : List RawValue) :
    combineElems (vs.map (fun x => Outcome.ok (.success x))) = some ([], vs) := by
  induction vs with
  | nil => rfl
  | cons x xs ih => simp [combineElems, ih]

/-- A value fixed under a second pass re-validates to itself. -/
theorem secondPass_success (S : Schema) :
    ∀ (path : List PathSeg) (v : RawValue), SecondPassFixed S v →
      validateAt S path v = .ok (.success v) := by
  induction S with
  | str checks =>
    intro path v h
    obtain ⟨s, rfl, hs⟩ := h
    simp [validateAt, hs]
  | coerceNum checks =>
    intro path v h
    obtain ⟨n, rfl, hn⟩ := h
    simp [validateAt, jsParseNumber, hn]
  | fileListInst =>
    intro path v h
    obtain ⟨fs, rfl⟩ := h
    rfl
  | transform inner f ih =>
    intro path v h
    obtain ⟨hi, hf⟩ := h
    simp [validateAt, ih path v hi, hf]
  | refine inner p msg ih =>
    intro path v h
    obtain ⟨hi, hp⟩ := h
    simp [validateAt, ih path v hi, hp]
  | objNil =>
    intro path v h
    subst h
    rfl
  | objCons n s rest ihs ihrest =>
    intro path v h
    obtain ⟨w, ws, rfl, hw, hws, hname⟩ := h
    have h1 : lookupEntry ((n, w) :: ws) n = some w := by simp [lookupEntry]
    have h2 : validateAt s (path ++ [.field n]) ((lookupEntry ((n, w) :: ws) n).getD .absent) =
        .ok (.success w) := by
      rw [h1]
      exact ihs (path ++ [.field n]) w hw
    have h3 : validateAt rest path (.obj ((n, w) :: ws)) = .ok (.success (.obj ws)) := by
      rw [validate_ignores_foreign_entry rest path n w ws hname]
      exact ihrest path (.obj ws) hws
    simp only [validateAt]
    rw [h2, h3]
    rfl
  | array elem minCheck ih =>
    intro path v h
    obtain ⟨items, rfl, hall, hmin⟩ := h
    have hcomb : combineElems (items.enum.map
        (fun p => validateAt elem (path ++ [.index p.1]) p.2)) = some ([], items) := by
      suffices hgen : ∀ (l : List RawValue) (n : Nat), (∀ x ∈ l, SecondPassFixed elem x) →
          combineElems ((List.enumFrom n l).map
            (fun p => validateAt elem (path ++ [.index p.1]) p.2)) = some ([], l) from
        hgen items 0 hall
      intro l
      induction l with
      | nil => intro n _; rfl
      | cons x xs ihl =>
        intro n hx
        have hx1 : validateAt elem (path ++ [.index n]) x = .ok (.success x) :=
          ih (path ++ [.index n]) x (hx x (by simp))
        simp [List.enumFrom, combineElems, hx1, ihl (n + 1) (fun y hy => hx y (by simp [hy]))]
    simp only [validateAt]
    rw [hcomb]
    cases minCheck with
    | none => rfl
    | some nm =>
      have hle : ¬ (items.length < nm.1) := Nat.not_lt.mpr hmin
      simp [hle]

set_option linter.unusedVariables false in
/-- Claim C9: if validating `input` returns `Success v`, and every transform's
output `v` satisfies all checks and is unchanged by a second application of
the transforms, then re-validating `v` against the same schema returns
`Success` with the same value `v`. -/
theorem validate_idempotent_on_fixed_values (S : Schema) (path : List PathSeg)
    (input v : RawValue)
    (hsucc : validateAt S path input = .ok (.success v))
    (hfix : SecondPassFixed S v) :
    validateAt S path v = .ok (.success v) :=
  secondPass_success S path v hfix

/-- Witness for C9: scenario B's schema (the source's capitalizing name
field) on "ada lovelace", whose output "Ada Lovelace" is fixed under a
second pass. -/
theorem validate_idempotent_on_fixed_values_witness :
    validateAt scenarioBSchema [] (.obj [("name", .str "ada lovelace")]) =
      .ok (.success (.obj [("name", .str "Ada Lovelace")])) ∧
    SecondPassFixed scenarioBSchema (.obj [("name", .str "Ada Lovelace")]) ∧
    validateAt scenarioBSchema [] (.obj [("name", .str "Ada Lovelace")]) =
      .ok (.success (.obj [("name", .str "Ada Lovelace")])) := by
  have hfix : SecondPassFixed scenarioBSchema (.obj [("name", .str "Ada Lovelace")]) := by
    refine ⟨.str "Ada Lovelace", [], rfl, ⟨⟨"Ada Lovelace", rfl, by decide⟩, rfl⟩, rfl, by decide⟩
  exact ⟨rfl, hfix,
    validate_idempotent_on_fixed_values scenarioBSchema []
      (.obj [("name", .str "ada lovelace")]) (.obj [("name", .str "Ada Lovelace")]) rfl hfix⟩

/-! ## Totality of evaluation (claim C2) -/

/-- Combining element outcomes none of which crashed cannot crash. -/
theorem combineElems_ok (rs : List Outcome) (h : ∀ r ∈ rs, ∃ x, r = Outcome.ok x) :
    ∃ p, combineElems rs = some p := by
  induction rs with
  | nil => exact ⟨([], []), rfl⟩
  | cons r rest ih =>
    obtain ⟨x, rfl⟩ := h r (by simp)
    obtain ⟨p, hp⟩ := ih (fun q hq => h q (by simp [hq]))
    obtain ⟨errs, vs⟩ := p
    cases x with
    | success v => exact ⟨(errs, v :: vs), by simp [combineElems, hp]⟩
    | failure es => exact ⟨(es ++ errs, vs), by simp [combineElems, hp]⟩

/-- A checks-only schema always returns a `ValidationResult`, whatever the
input. -/
theorem checksOnly_no_crash (S : Schema) :
    checksOnly S = true →
      ∀ (path : List PathSeg) (v : RawValue), ∃ r, validateAt S path v = .ok r := by
  induction S with
  | str checks =>
    intro _ path v
    cases v <;> try exact ⟨_, rfl⟩
    dsimp only [validateAt]
    split <;> exact ⟨_, rfl⟩
  | coerceNum checks =>
    intro _ path v
    dsimp only [validateAt]
    split
    · exact ⟨_, rfl⟩
    · split <;> exact ⟨_, rfl⟩
  | fileListInst =>
    intro _ path v
    cases v <;> exact ⟨_, rfl⟩
  | transform inner f ih =>
    intro hS
    exact absurd hS (by simp [checksOnly])
  | refine inner p msg ih =>
    intro hS
    exact absurd hS (by simp [checksOnly])
  | objNil =>
    intro _ path v
    cases v <;> exact ⟨_, rfl⟩
  | objCons n s rest ihs ihrest =>
    intro hS path v
    simp only [checksOnly, Bool.and_eq_true] at hS
    cases v <;> try exact ⟨_, rfl⟩
    rename_i entries
    obtain ⟨r1, h1⟩ := ihs hS.1 (path ++ [.field n]) ((lookupEntry entries n).getD .absent)
    obtain ⟨r2, h2⟩ := ihrest hS.2 path (.obj entries)
    dsimp only [validateAt]
    rw [h1, h2]
    cases r1 <;> cases r2 <;> exact ⟨_, rfl⟩
  | array elem minCheck ih =>
    intro hS path v
    simp only [checksOnly] at hS
    cases v <;> try exact ⟨_, rfl⟩
    rename_i items
    have hall : ∀ r ∈ items.enum.map (fun p => validateAt elem (path ++ [.index p.1]) p.2),
        ∃ x, r = Outcome.ok x := by
      intro r hr
      simp only [List.mem_map] at hr
      obtain ⟨q, _, rfl⟩ := hr
      exact ih hS (path ++ [.index q.1]) q.2
    obtain ⟨⟨errs, vals⟩, hcomb⟩ := combineElems_ok _ hall
    dsimp only [validateAt]
    rw [hcomb]
    dsimp only
    cases minCheck <;> (repeat' split) <;> exact ⟨_, rfl⟩

/-- The avatar node returns a `ValidationResult` on every input except an
empty FileList (where the size predicate dereferences `null`). -/
theorem avatarSchema_no_crash (path : List PathSeg) (e : RawValue)
    (h : ∀ fs, e = .fileList fs → fs ≠ []) :
    ∃ r, validateAt avatarSchema path e = .ok r := by
  cases e <;> try exact ⟨_, rfl⟩
  rename_i fs
  rcases fs with _ | ⟨f, rest⟩
  · exact absurd rfl (h [] rfl)
  · by_cases hsz : f.size ≤ 5 * 1024 * 1024
    · refine ⟨.success (.file f), ?_⟩
      simp [validateAt, avatarSchema, avatarTransform, avatarSizeCheck, hsz]
    · refine ⟨.failure [FieldError.mk path "O arquivo precisa ter no máximo 5Mb"], ?_⟩
      simp [validateAt, avatarSchema, avatarTransform, avatarSizeCheck, hsz]

/-- The name node returns a `ValidationResult` on every input except a string
on which `formatName` is undefined (a whitespace-only or multi-space name
that passed the non-empty check). -/
theorem nameSchema_no_crash (path : List PathSeg) (e : RawValue)
    (h : ∀ s, e = .str s → (formatName s).isSome) :
    ∃ r, validateAt nameSchema path e = .ok r := by
  cases e <;> try exact ⟨_, rfl⟩
  rename_i s
  have hs := h s rfl
  by_cases hlen : s.length < 1
  · refine ⟨.failure [FieldError.mk path "O nome é obrigatório"], ?_⟩
    simp [nameSchema, validateAt, runStrChecks, runStrCheck, hlen]
  · obtain ⟨t, ht⟩ := Option.isSome_iff_exists.mp hs
    refine ⟨.success (.str t), ?_⟩
    simp [nameSchema, validateAt, runStrChecks, runStrCheck, hlen, nameTransform, ht]

/-- A field-list node whose field and remaining fields both produced
`ValidationResult`s produces one as well. -/
theorem objCons_ok (name : String) (s rest : Schema) (path : List PathSeg)
    (entries : List (String × RawValue)) (r1 r2 : ValidationResult)
    (h1 : validateAt s (path ++ [.field name]) ((lookupEntry entries name).getD .absent) = .ok r1)
    (h2 : validateAt rest path (.obj entries) = .ok r2) :
    ∃ r, validateAt (.objCons name s rest) path (.obj entries) = .ok r := by
  dsimp only [validateAt]
  rw [h1, h2]
  cases r1 <;> cases r2 <;> exact ⟨_, rfl⟩

/-- Claim C2 (amended): for every input whose avatar field, when it is a
FileList, is nonempty, and whose name field, when it is a string, is one on
which `formatName` is defined, evaluating the form schema returns a
`ValidationResult` value (`Success` or `Failure`) — it never reaches a
partial operation.  (The excluded inputs do crash: see the counterexample.) -/
theorem validate_total_on_guarded_inputs (v : RawValue)
    (hAvatar : avatarInputSafe v = true) (hName : nameInputSafe v = true) :
    ∃ r, parseForm v = .ok r := by
  cases v <;> try exact ⟨_, rfl⟩
  rename_i entries
  have hAv : ∀ fs, (lookupEntry entries "avatar").getD .absent = .fileList fs → fs ≠ [] := by
    intro fs hfs hnil
    subst hnil
    simp only [avatarInputSafe] at hAvatar
    cases hl : lookupEntry entries "avatar" with
    | none =>
      rw [hl] at hfs
      exact RawValue.noConfusion hfs
    | some w =>
      rw [hl] at hfs hAvatar
      have hw : w = .fileList [] := hfs
      subst hw
      simp at hAvatar
  have hNm : ∀ s, (lookupEntry entries "name").getD .absent = .str s → (formatName s).isSome := by
    intro s hfs
    simp only [nameInputSafe] at hName
    cases hl : lookupEntry entries "name" with
    | none =>
      rw [hl] at hfs
      exact RawValue.noConfusion hfs
    | some w =>
      rw [hl] at hfs hName
      have hw : w = .str s := hfs
      subst hw
      exact hName
  obtain ⟨rA, hA⟩ := avatarSchema_no_crash ([] ++ [.field "avatar"]) _ hAv
  obtain ⟨rN, hN⟩ := nameSchema_no_crash ([] ++ [.field "name"]) _ hNm
  obtain ⟨rE, hE⟩ := checksOnly_no_crash emailSchema rfl ([] ++ [.field "email"])
    ((lookupEntry entries "email").getD .absent)
  obtain ⟨rP, hP⟩ := checksOnly_no_crash passwordSchema rfl ([] ++ [.field "password"])
    ((lookupEntry entries "password").getD .absent)
  obtain ⟨rT, hT⟩ := checksOnly_no_crash techsSchema rfl ([] ++ [.field "techs"])
    ((lookupEntry entries "techs").getD .absent)
  have hNil : validateAt .objNil [] (.obj entries) = .ok (.success (.obj [])) := rfl
  obtain ⟨r5, h5⟩ := objCons_ok "techs" techsSchema .objNil [] entries rT _ hT hNil
  obtain ⟨r4, h4⟩ := objCons_ok "password" passwordSchema _ [] entries rP r5 hP h5
  obtain ⟨r3, h3⟩ := objCons_ok "email" emailSchema _ [] entries rE r4 hE h4
  obtain ⟨r2, h2⟩ := objCons_ok "name" nameSchema _ [] entries rN r3 hN h3
  obtain ⟨r1, h1⟩ := objCons_ok "avatar" avatarSchema _ [] entries rA r2 hA h2
  exact ⟨r1, h1⟩

/-- Witness for the amended C2 at a concrete guarded input. -/
theorem validate_total_on_guarded_inputs_witness :
    avatarInputSafe inputGood = true ∧ nameInputSafe inputGood = true ∧
    ∃ r, parseForm inputGood = .ok r :=
  ⟨rfl, rfl, validate_total_on_guarded_inputs inputGood rfl rfl⟩

/-- The full form evaluated on a completely valid input: every transform is
applied (file extraction, name capitalization) and the knowledge strings are
coerced. -/
theorem parseForm_on_valid_input :
    parseForm inputGood =
      .ok (.success (.obj [("avatar", .file (FileHandle.mk 1024)),
                           ("name", .str "John Doe"),
                           ("email", .str "a@b.com"),
                           ("password", .str "secret1"),
                           ("techs", .list [.obj [("title", .str "Go"), ("knowledge", .num 80)],
                                            .obj [("title", .str "JS"), ("knowledge", .num 50)]])])) :=
  rfl
